import Mathlib

/-!
Verification of the USB Link core of the gocarplay repository.

The Go sources are embedded shallowly: byte buffers become `List Nat`
(each element a byte value), the Go `uint32` arithmetic becomes `Nat`
with explicit `% 4294967296` where overflow matters, `int32` values
become `Int` via `toInt32`, and fallible functions return
`Except String`.  Go field names are kept except that they are
lowercased (`Type` is a Lean keyword, so the `Header` fields are
lowercased and the other structures follow the same convention).
`float32` values are represented by their 32-bit little-endian pattern:
`math.Float32frombits` is a bijection between patterns and floats, so
nothing is lost.
-/

namespace Gocarplay

/-- Little-endian 32-bit encoding of a natural number, as in
`encoding/binary` with `binary.LittleEndian.PutUint32`. -/
def le32 (n : Nat) : List Nat :=
  [n % 256, n / 256 % 256, n / 65536 % 256, n / 16777216 % 256]

/-- Little-endian 32-bit read at offset `i`, as in
`binary.LittleEndian.Uint32(data[i:])`.  All call sites in the source
guard the length, so the short-buffer default value is never reached
on guarded paths. -/
def readLE32 (bs : List Nat) (i : Nat) : Nat :=
  match bs.drop i with
  | b0 :: b1 :: b2 :: b3 :: _ => b0 + 256 * b1 + 65536 * b2 + 16777216 * b3
  | _ => 0

/-- Reinterpretation of a `uint32` value as Go `int32`. -/
def toInt32 (n : Nat) : Int :=
  if n % 4294967296 < 2147483648 then ((n % 4294967296 : Nat) : Int)
  else ((n % 4294967296 : Nat) : Int) - 4294967296

/-- Bit pattern of a Go `int32` value, as produced by a `uint32` cast. -/
def u32ofInt (i : Int) : Nat := (i % 4294967296).toNat

/-- The protocol magic constant from `src/protocol/message.go`. -/
def magicNumber : Nat := 0x55aa55aa

def VideoDataPacketType : Nat := 0x06
def AudioDataPacketType : Nat := 0x07

/-- Header structure of the data protocol: four little-endian `uint32`
fields (`Magic`, `Length`, `Type`, `TypeN` in the Go source). -/
structure Header where
  magic : Nat
  length : Nat
  type : Nat
  typeN : Nat
deriving DecidableEq, Repr

/-- Embedding of `protocol.UnmarshalHeader`. -/
def UnmarshalHeader (data : List Nat) : Except String Header :=
  if data.length ≠ 16 then .error "wrong header size (!=16)"
  else
    let hdr : Header :=
      ⟨readLE32 data 0, readLE32 data 4, readLE32 data 8, readLE32 data 12⟩
    if hdr.magic ≠ magicNumber then .error "Invalid magic number"
    else if (hdr.type ^^^ 4294967295) &&& 4294967295 ≠ hdr.typeN then .error "Invalid type"
    else .ok hdr

/-- VideoData payload structure (fields `Width`, `Height`, `Flags`,
`Length`, `Unknown2`, `Data` in the Go source, all `int32` except the
byte slice). -/
structure VideoData where
  width : Int
  height : Int
  flags : Int
  length : Int
  unknown2 : Int
  data : List Nat
deriving DecidableEq, Repr

/-- Embedding of `protocol.UnmarhalVideoData` (the misspelling is the
source function name). -/
def UnmarhalVideoData (data : List Nat) : Except String VideoData :=
  if data.length < 20 then .error "wrong videodata size (<20)"
  else
    let len := toInt32 (readLE32 data 12)
    if (data.length : Int) ≠ 20 + len then
      .error "wrong videodata size (len(data) != 20+length)"
    else
      .ok ⟨toInt32 (readLE32 data 0), toInt32 (readLE32 data 4),
           toInt32 (readLE32 data 8), len, toInt32 (readLE32 data 16),
           data.drop 20⟩

/-- AudioData payload structure.  `volume` is the Go `float32` field
represented by its 32-bit pattern; `decodeType` and `command` are the
`uint32`-valued `DecodeType` and byte-valued `AudioCommand` wrappers.
Defaults are the Go zero values. -/
structure AudioData where
  decodeType : Nat := 0
  volume : Nat := 0
  audioType : Int := 0
  command : Nat := 0
  volumeDuration : Int := 0
  data : List Nat := []
deriving DecidableEq, Repr

/-- Embedding of `protocol.UnmarshalAudioData`. -/
def UnmarshalAudioData (data : List Nat) : Except String AudioData :=
  if data.length < 12 then .error "wrong audiodata size (<12)"
  else if data.length - 12 = 1 then
    .ok { decodeType := readLE32 data 0, volume := readLE32 data 4,
          audioType := toInt32 (readLE32 data 8), command := data.getD 12 0 }
  else if data.length - 12 = 4 then
    .ok { decodeType := readLE32 data 0, volume := readLE32 data 4,
          audioType := toInt32 (readLE32 data 8),
          volumeDuration := toInt32 (readLE32 data 12) }
  else
    .ok { decodeType := readLE32 data 0, volume := readLE32 data 4,
          audioType := toInt32 (readLE32 data 8), data := data.drop 12 }

/-- Embedding of `protocol.Unmarshal` specialised to a `*Header`
target.  `struc.Unpack` of the four `uint32,little` fields is the four
little-endian reads and fails with an EOF error when fewer than 16
bytes are available; with an empty buffer the unpack step is skipped
and the zero-valued header is validated. -/
def UnmarshalIntoHeader (data : List Nat) : Except String Header :=
  let unpacked : Except String Header :=
    if data.length > 0 then
      if data.length < 16 then .error "unexpected EOF"
      else .ok ⟨readLE32 data 0, readLE32 data 4, readLE32 data 8, readLE32 data 12⟩
    else .ok ⟨0, 0, 0, 0⟩
  match unpacked with
  | .error e => .error e
  | .ok hdr =>
    if hdr.magic ≠ magicNumber then .error "Invalid magic number"
    else if (hdr.type ^^^ 4294967295) &&& 4294967295 ≠ hdr.typeN then .error "Invalid type"
    else .ok hdr

/-- The registered message variants of `protocol.messageTypes`.
Modelled from the spec: the Go file defining the payload struct types
(`SendFile`, `Open`, `Heartbeat`, ...) is not under `src/`; the variant
list and its type codes are taken from `messageTypes` in
`src/protocol/message.go`, and the field lists follow the payload
sketches of spec section 3. -/
inductive Message where
  | SendFile (fileName : List Nat) (content : List Nat)
  | Open (width height fps format packetMax iBoxVer phoneMode : Int)
  | Heartbeat
  | ManufacturerInfo (a b : Int)
  | CarPlay (value : Nat)
  | SoftwareVersion (value : List Nat)
  | BluetoothAddress (value : List Nat)
  | BluetoothPIN (value : List Nat)
  | Plugged
  | Unplugged
  | VideoData (v : Gocarplay.VideoData)
  | AudioData (a : Gocarplay.AudioData)
  | Touch (x y action : Nat)
  | BluetoothDeviceName (value : List Nat)
  | WifiDeviceName (value : List Nat)
  | BluetoothPairedList (value : List Nat)
deriving DecidableEq

/-- The type codes of `protocol.messageTypes`. -/
def messageType : Message → Nat
  | .SendFile .. => 0x99
  | .Open .. => 0x01
  | .Heartbeat => 0xaa
  | .ManufacturerInfo .. => 0x14
  | .CarPlay .. => 0x08
  | .SoftwareVersion .. => 0xcc
  | .BluetoothAddress .. => 0x0a
  | .BluetoothPIN .. => 0x0c
  | .Plugged => 0x02
  | .Unplugged => 0x04
  | .VideoData .. => 0x06
  | .AudioData .. => 0x07
  | .Touch .. => 0x05
  | .BluetoothDeviceName .. => 0x0d
  | .WifiDeviceName .. => 0x0e
  | .BluetoothPairedList .. => 0x12

/-- Modelled from the spec: the serialised payload of each variant
(`packPayload`, i.e. `struc.Pack` of the payload struct, whose field
tags are in the Go file missing from `src/`).  Fixed-size integer
fields are packed little-endian, strings keep their terminator, opaque
and string variants carry raw bytes, and field-less structs pack to
nothing.  The header-level claims proved below do not depend on these
layouts, only on the byte count handed to `packHeader`. -/
def payloadBytes : Message → List Nat
  | .SendFile fileName content => fileName ++ content
  | .Open w h fps format packetMax iBoxVer phoneMode =>
      le32 (u32ofInt w) ++ le32 (u32ofInt h) ++ le32 (u32ofInt fps) ++
      le32 (u32ofInt format) ++ le32 (u32ofInt packetMax) ++
      le32 (u32ofInt iBoxVer) ++ le32 (u32ofInt phoneMode)
  | .Heartbeat => []
  | .ManufacturerInfo a b => le32 (u32ofInt a) ++ le32 (u32ofInt b)
  | .CarPlay value => le32 value
  | .SoftwareVersion value => value
  | .BluetoothAddress value => value
  | .BluetoothPIN value => value
  | .Plugged => []
  | .Unplugged => []
  | .VideoData v =>
      le32 (u32ofInt v.width) ++ le32 (u32ofInt v.height) ++
      le32 (u32ofInt v.flags) ++ le32 (u32ofInt v.length) ++
      le32 (u32ofInt v.unknown2) ++ v.data
  | .AudioData a =>
      le32 a.decodeType ++ le32 a.volume ++ le32 (u32ofInt a.audioType) ++ a.data
  | .Touch x y action => le32 x ++ le32 y ++ le32 action
  | .BluetoothDeviceName value => value
  | .WifiDeviceName value => value
  | .BluetoothPairedList value => value

/-- `struc.Pack` of a `Header` value: four little-endian 32-bit words. -/
def headerBytes (h : Header) : List Nat :=
  le32 h.magic ++ le32 h.length ++ le32 h.type ++ le32 h.typeN

/-- Embedding of `protocol.packHeader`: build the header for a
registered type code (`Length` is the Go `uint32(len(data))`, hence
the modulus) and prepend it to the payload bytes. -/
def packHeader (msgType : Nat) (data : List Nat) : List Nat :=
  headerBytes ⟨magicNumber, data.length % 4294967296, msgType,
               (msgType ^^^ 4294967295) &&& 4294967295⟩ ++ data

/-- Embedding of `protocol.Marshal`.  For the registered variants of
`Message` the `messageTypes` lookup always succeeds and packing the
payload into a `bytes.Buffer` cannot fail, so the function is total. -/
def Marshal (m : Message) : List Nat :=
  packHeader (messageType m) (payloadBytes m)

/-- One result of a `bufio.Reader.Read` call on the IN stream: the
bytes delivered (at most the requested count) and the error value.
The receive loop is modelled against the list of successive read
results. -/
structure ReadResult where
  bytes : List Nat
  err : Option String
deriving DecidableEq

abbrev Reader := List ReadResult

/-- Pop the next read result, clamped to the requested byte count; an
exhausted reader yields an EOF error, as a drained USB stream does. -/
def readChunk (n : Nat) : Reader → (List Nat × Option String) × Reader
  | [] => (([], some "EOF"), [])
  | r :: rs => ((r.bytes.take n, r.err), rs)

/-- The `usbMessage` struct of `src/usblink/usblink.go`: `buf` is an
`Option` because the Go code distinguishes a nil slice (the zero
`usbMessage{}`) from an allocated one. -/
structure UsbMessage where
  header : Header := ⟨0, 0, 0, 0⟩
  buf : Option (List Nat) := none
deriving DecidableEq

/-- Embedding of `(*USBLink).receiveUsbMessage`: read 16 header bytes,
decode, then read `Length` payload bytes.  A read error is returned as
the error; a short read without an error returns the zero
`usbMessage{}` with a nil error, exactly as the Go code does. -/
def receiveUsbMessage (r : Reader) : Except String UsbMessage × Reader :=
  let ((b, e), r1) := readChunk 16 r
  match e with
  | some err => (.error err, r1)
  | none =>
    if b.length ≠ 16 then (.ok {}, r1)
    else
      match UnmarshalHeader b with
      | .error err => (.error err, r1)
      | .ok hdr =>
        if hdr.length > 0 then
          let ((b2, e2), r2) := readChunk hdr.length r1
          match e2 with
          | some err => (.error err, r2)
          | none =>
            if b2.length ≠ hdr.length then (.ok {}, r2)
            else (.ok ⟨hdr, some b2⟩, r2)
        else (.ok ⟨hdr, some []⟩, r1)

/-- Embedding of `(*USBLink).receiveVideoAudioUsbMessage`: repeat
`receiveUsbMessage` until an error or a message whose header type is
video or audio; every other message is discarded.  The fuel equals the
reader length: each iteration consumes at least one read result, and
when the fuel runs out the reader is exhausted, where the real loop
would next see the EOF read — so the fuel base case coincides with the
loop's behaviour. -/
def receiveVideoAudioAux : Nat → Reader → Except String UsbMessage × Reader
  | 0, r => (.error "EOF", r)
  | fuel + 1, r =>
    match receiveUsbMessage r with
    | (.error e, r1) => (.error e, r1)
    | (.ok msg, r1) =>
      if msg.header.type = VideoDataPacketType ∨ msg.header.type = AudioDataPacketType then
        (.ok msg, r1)
      else receiveVideoAudioAux fuel r1

def receiveVideoAudioUsbMessage (r : Reader) : Except String UsbMessage × Reader :=
  receiveVideoAudioAux r.length r

/-- The callback invocations observable from one receiver iteration. -/
inductive Event where
  | onVideo (v : VideoData)
  | onAudio (a : AudioData)
  | onData (typ : Nat) (buf : List Nat)
  | onError (e : String)
deriving DecidableEq

/-- One iteration of the receive loop of
`(*USBLink).inEndpointProcess`, with all callbacks installed: the
events it emits and the remaining reader.  The non-media default
branch of the Go switch is commented out in the source, so it emits
nothing. -/
def inEndpointStep (r : Reader) : List Event × Reader :=
  match receiveVideoAudioUsbMessage r with
  | (.error e, r1) => ([.onError e], r1)
  | (.ok msg, r1) =>
    match msg.buf with
    | none => ([], r1)
    | some buf =>
      if msg.header.type = VideoDataPacketType then
        match UnmarhalVideoData buf with
        | .error e => ([.onError e], r1)
        | .ok v => ([.onVideo v], r1)
      else if msg.header.type = AudioDataPacketType then
        match UnmarshalAudioData buf with
        | .error e => ([.onError e], r1)
        | .ok a => ([.onAudio a], r1)
      else ([], r1)

/-- The receive loop run to exhaustion of the reader, concatenating
the events of the successive iterations. -/
def inEndpointRunAux : Nat → Reader → List Event
  | 0, _ => []
  | fuel + 1, r =>
    let (evs, r1) := inEndpointStep r
    evs ++ inEndpointRunAux fuel r1

def inEndpointRun (r : Reader) : List Event :=
  inEndpointRunAux r.length r

/-- Capacity of the reusable batch buffer of
`(*USBLink).outEndpointProcess` (`make([]byte, 0, 512*9600)`). -/
def outBufferCap : Nat := 512 * 9600

/-- The inner batching loop of `outEndpointProcess`, driven by the
messages dequeued during the window: a marshalled message strictly
smaller than the remaining free space is appended to the batch buffer;
otherwise the buffer and then the message are written and the window
ends; when the queue is drained (or the 300 ms timer fires, which
flushes identically) the buffer is written.  The result is the list of
OUT-endpoint writes and the messages left undequeued. -/
def senderWindowLoop : Nat → List Nat → List (List Nat) → List (List Nat) × List (List Nat)
  | _, buff, [] => ([buff], [])
  | remaining, buff, bMsg :: rest =>
    if remaining > bMsg.length then
      senderWindowLoop (remaining - bMsg.length) (buff ++ bMsg) rest
    else ([buff, bMsg], rest)

/-- One batch window of `outEndpointProcess`: the first dequeued
message either starts the batch buffer or, when it does not fit below
the capacity, is written directly and ends the window with the buffer
untouched (the Go `continue`). -/
def senderWindow (bMsg : List Nat) (queue : List (List Nat)) :
    List (List Nat) × List (List Nat) :=
  if outBufferCap > bMsg.length then
    senderWindowLoop (outBufferCap - bMsg.length) bMsg queue
  else ([bMsg], queue)

/-- Outcome of a batch window when OUT-endpoint writes can fail.
`log.Fatal` terminates the whole process, which the model records as
`processExit`. -/
inductive SenderOutcome where
  | windowDone (rest : List (List Nat))
  | processExit (e : String)
deriving DecidableEq

/-- Results of the successive `out.Write` calls. -/
abbrev WriteOracle := List (Option String)

def writeRes : WriteOracle → Option String × WriteOracle
  | [] => (none, [])
  | w :: ws => (w, ws)

/-- The batching loop with write failures: every failed `out.Write` in
`outEndpointProcess` is followed by `log.Fatal(err)`, so the process
exits. -/
def senderWindowLoopE : WriteOracle → Nat → List Nat → List (List Nat) → SenderOutcome
  | ws, _, _, [] =>
    match writeRes ws with
    | (some e, _) => .processExit e
    | (none, _) => .windowDone []
  | ws, remaining, buff, bMsg :: rest =>
    if remaining > bMsg.length then
      senderWindowLoopE ws (remaining - bMsg.length) (buff ++ bMsg) rest
    else
      match writeRes ws with
      | (some e, _) => .processExit e
      | (none, ws1) =>
        match writeRes ws1 with
        | (some e, _) => .processExit e
        | (none, _) => .windowDone rest

def senderWindowE (ws : WriteOracle) (bMsg : List Nat) (queue : List (List Nat)) :
    SenderOutcome :=
  if outBufferCap > bMsg.length then
    senderWindowLoopE ws (outBufferCap - bMsg.length) bMsg queue
  else
    match writeRes ws with
    | (some e, _) => .processExit e
    | (none, _) => .windowDone queue

/-- The `USBLink` fields touched by `Start` and `Stop`; a `Bool`
records whether the corresponding Go pointer, channel or callback is
non-nil.  `usbCtx` stays non-nil after `Stop` (the Go code closes the
context but never nils the field). -/
structure USBLink where
  exitChan : Bool := false
  outData : Bool := false
  usbCtx : Bool := false
  onVideo : Bool := false
  onAudio : Bool := false
  onData : Bool := false
  onError : Bool := false
  onReadySend : Bool := false
deriving DecidableEq, Repr

/-- Embedding of `(*USBLink).Start` (callbacks assumed non-nil): the
returned `Option String` is the Go error value, `none` meaning `nil`.
When the link is already running it returns `nil` immediately without
touching any field. -/
def Start (l : USBLink) : USBLink × Option String :=
  if l.exitChan then (l, none)
  else ({ exitChan := true, outData := true, usbCtx := true,
          onVideo := true, onAudio := true, onData := true,
          onError := true, onReadySend := true }, none)

/-- Embedding of `(*USBLink).Stop`: a no-op when the link is not
running, otherwise the channels and callbacks are torn down. -/
def Stop (l : USBLink) : USBLink :=
  if l.exitChan = false then l
  else { l with exitChan := false, outData := false,
                onVideo := false, onAudio := false, onData := false,
                onError := false, onReadySend := false }

/-! ### Helper lemmas -/

instance exceptDecEq {ε α : Type} [DecidableEq ε] [DecidableEq α] :
    DecidableEq (Except ε α) := fun x y =>
  match x, y with
  | .ok a, .ok b =>
    if h : a = b then .isTrue (by rw [h])
    else .isFalse (by intro hc; injection hc; contradiction)
  | .error e, .error f =>
    if h : e = f then .isTrue (by rw [h])
    else .isFalse (by intro hc; injection hc; contradiction)
  | .ok _, .error _ => .isFalse (by intro hc; cases hc)
  | .error _, .ok _ => .isFalse (by intro hc; cases hc)

lemma le32_reconstruct (n : Nat) :
    n % 256 + 256 * (n / 256 % 256) + 65536 * (n / 65536 % 256) +
      16777216 * (n / 16777216 % 256) = n % 4294967296 := by
  omega

lemma readLE32_le32_append (n : Nat) (rest : List Nat) :
    readLE32 (le32 n ++ rest) 0 = n % 4294967296 :=
  le32_reconstruct n

lemma readLE32_add4 (a : Nat) (rest : List Nat) (i : Nat) :
    readLE32 (le32 a ++ rest) (i + 4) = readLE32 rest i := rfl

lemma headerBytes_length (h : Header) : (headerBytes h).length = 16 := rfl

lemma headerBytes_reads (h : Header) :
    readLE32 (headerBytes h) 0 = h.magic % 4294967296 ∧
    readLE32 (headerBytes h) 4 = h.length % 4294967296 ∧
    readLE32 (headerBytes h) 8 = h.type % 4294967296 ∧
    readLE32 (headerBytes h) 12 = h.typeN % 4294967296 := by
  refine ⟨readLE32_le32_append h.magic _, ?_, ?_, ?_⟩
  · exact (readLE32_add4 h.magic _ 0).trans (readLE32_le32_append h.length _)
  · exact (readLE32_add4 h.magic _ (0 + 4)).trans
      ((readLE32_add4 h.length _ 0).trans (readLE32_le32_append h.type _))
  · exact (readLE32_add4 h.magic _ (0 + 4 + 4)).trans
      ((readLE32_add4 h.length _ (0 + 4)).trans
        ((readLE32_add4 h.type _ 0).trans (readLE32_le32_append h.typeN [])))

lemma and_mask32_of_lt {x : Nat} (h : x < 4294967296) : x &&& 4294967295 = x := by
  have h32 : x < 2 ^ 32 := by norm_num; omega
  have hx := Nat.and_pow_two_sub_one_of_lt_two_pow h32
  norm_num at hx
  exact hx

lemma xor_mask32_lt {x : Nat} (h : x < 4294967296) : x ^^^ 4294967295 < 4294967296 := by
  have h1 : x < 2 ^ 32 := by norm_num; omega
  have h2 : (4294967295 : Nat) < 2 ^ 32 := by norm_num
  have hx := Nat.xor_lt_two_pow h1 h2
  norm_num at hx
  exact hx

lemma readLE32_lt (d : List Nat) (hd : ∀ b ∈ d, b < 256) (i : Nat) :
    readLE32 d i < 4294967296 := by
  unfold readLE32
  split
  · next b0 b1 b2 b3 rest heq =>
      have hsub : ∀ b ∈ d.drop i, b < 256 := fun b hb => hd b (List.drop_subset i d hb)
      have h0 : b0 < 256 := hsub b0 (by rw [heq]; exact List.mem_cons_self _ _)
      have h1 : b1 < 256 := hsub b1 (by rw [heq]; simp)
      have h2 : b2 < 256 := hsub b2 (by rw [heq]; simp)
      have h3 : b3 < 256 := hsub b3 (by rw [heq]; simp)
      omega
  · omega

lemma UnmarshalHeader_eq (d : List Nat) :
    UnmarshalHeader d =
      if d.length ≠ 16 then .error "wrong header size (!=16)"
      else if readLE32 d 0 ≠ magicNumber then .error "Invalid magic number"
      else if (readLE32 d 8 ^^^ 4294967295) &&& 4294967295 ≠ readLE32 d 12 then
        .error "Invalid type"
      else .ok ⟨readLE32 d 0, readLE32 d 4, readLE32 d 8, readLE32 d 12⟩ := rfl

/-! ### Claim C2 -/

/-- C2: `UnmarshalHeader` decodes a 16-byte buffer into four
little-endian u32 fields, succeeding exactly when the magic equals
0x55AA55AA and `typeN` is the 32-bit complement of `type`; any buffer
whose length is not 16 (in particular a short one) fails, and the test
vector AA 55 AA 55 74 0E 00 00 06 00 00 00 F9 FF FF FF decodes to
`Header` with magic 0x55AA55AA, length 3700, type 6, typeN
0xFFFFFFF9. -/
theorem c2_unmarshalHeader :
    (∀ d : List Nat, d.length = 16 → (∀ b ∈ d, b < 256) →
        ((∃ h, UnmarshalHeader d = .ok h) ↔
          (readLE32 d 0 = magicNumber ∧ readLE32 d 8 ^^^ 4294967295 = readLE32 d 12))
      ∧ (∀ h, UnmarshalHeader d = .ok h →
          h = ⟨readLE32 d 0, readLE32 d 4, readLE32 d 8, readLE32 d 12⟩))
  ∧ (∀ d : List Nat, d.length ≠ 16 → ∃ e, UnmarshalHeader d = .error e)
  ∧ UnmarshalHeader [0xAA, 0x55, 0xAA, 0x55, 0x74, 0x0E, 0, 0, 0x06, 0, 0, 0,
      0xF9, 0xFF, 0xFF, 0xFF] = .ok ⟨0x55AA55AA, 3700, 6, 0xFFFFFFF9⟩ := by
  refine ⟨?_, ?_, rfl⟩
  · intro d h16 hb
    have hmask : (readLE32 d 8 ^^^ 4294967295) &&& 4294967295 =
        readLE32 d 8 ^^^ 4294967295 :=
      and_mask32_of_lt (xor_mask32_lt (readLE32_lt d hb 8))
    rw [UnmarshalHeader_eq, if_neg (by omega : ¬ (d.length ≠ 16))]
    by_cases hm : readLE32 d 0 = magicNumber
    · rw [if_neg (not_not_intro hm)]
      by_cases ht : (readLE32 d 8 ^^^ 4294967295) &&& 4294967295 = readLE32 d 12
      · rw [if_neg (not_not_intro ht)]
        refine ⟨⟨fun _ => ⟨hm, hmask ▸ ht⟩, fun _ => ⟨_, rfl⟩⟩, ?_⟩
        intro h hh
        injection hh with hh
        exact hh.symm
      · rw [if_pos ht]
        refine ⟨⟨?_, ?_⟩, ?_⟩
        · rintro ⟨h, hh⟩; cases hh
        · rintro ⟨-, hx⟩; exact absurd (hmask.trans hx) ht
        · intro h hh; cases hh
    · rw [if_pos hm]
      refine ⟨⟨?_, ?_⟩, ?_⟩
      · rintro ⟨h, hh⟩; cases hh
      · rintro ⟨hm', -⟩; exact absurd hm' hm
      · intro h hh; cases hh
  · intro d h16
    exact ⟨"wrong header size (!=16)", by rw [UnmarshalHeader_eq, if_pos h16]⟩

theorem c2_witness :
    (∃ h, UnmarshalHeader [0xAA, 0x55, 0xAA, 0x55, 0x74, 0x0E, 0, 0, 0x06, 0, 0, 0,
        0xF9, 0xFF, 0xFF, 0xFF] = .ok h) ∧
    (∃ e, UnmarshalHeader [0, 1, 2] = .error e) :=
  ⟨((c2_unmarshalHeader.1 _ (by decide) (by decide)).1).mpr (by decide),
   c2_unmarshalHeader.2.1 [0, 1, 2] (by decide)⟩

/-! ### Claim C3 -/

lemma UnmarhalVideoData_eq (d : List Nat) :
    UnmarhalVideoData d =
      if d.length < 20 then .error "wrong videodata size (<20)"
      else if (d.length : Int) ≠ 20 + toInt32 (readLE32 d 12) then
        .error "wrong videodata size (len(data) != 20+length)"
      else .ok ⟨toInt32 (readLE32 d 0), toInt32 (readLE32 d 4), toInt32 (readLE32 d 8),
                toInt32 (readLE32 d 12), toInt32 (readLE32 d 16), d.drop 20⟩ := rfl

/-- C3: `UnmarhalVideoData` succeeds exactly when the buffer is at
least 20 bytes long and its total length is 20 plus the little-endian
i32 at offset 12; on success the five i32 fields are read at offsets
0, 4, 8, 12, 16 and `data` is the tail after byte 20.  A 20-byte
all-zero payload decodes to the zero `VideoData` with empty data, and
a 19-byte payload is a decode error. -/
theorem c3_unmarhalVideoData :
    (∀ d : List Nat,
        ((∃ v, UnmarhalVideoData d = .ok v) ↔
          (20 ≤ d.length ∧ (d.length : Int) = 20 + toInt32 (readLE32 d 12)))
      ∧ (∀ v, UnmarhalVideoData d = .ok v →
          v = ⟨toInt32 (readLE32 d 0), toInt32 (readLE32 d 4), toInt32 (readLE32 d 8),
               toInt32 (readLE32 d 12), toInt32 (readLE32 d 16), d.drop 20⟩))
  ∧ UnmarhalVideoData (List.replicate 20 0) = .ok ⟨0, 0, 0, 0, 0, []⟩
  ∧ (∃ e, UnmarhalVideoData (List.replicate 19 0) = .error e) := by
  refine ⟨?_, by decide, ⟨"wrong videodata size (<20)", by decide⟩⟩
  intro d
  rw [UnmarhalVideoData_eq]
  by_cases h20 : d.length < 20
  · rw [if_pos h20]
    refine ⟨⟨?_, ?_⟩, ?_⟩
    · rintro ⟨v, hv⟩; cases hv
    · rintro ⟨hl, -⟩; omega
    · intro v hv; cases hv
  · rw [if_neg h20]
    by_cases heq : (d.length : Int) = 20 + toInt32 (readLE32 d 12)
    · rw [if_neg (not_not_intro heq)]
      refine ⟨⟨fun _ => ⟨by omega, heq⟩, fun _ => ⟨_, rfl⟩⟩, ?_⟩
      intro v hv
      injection hv with hv
      exact hv.symm
    · rw [if_pos heq]
      refine ⟨⟨?_, ?_⟩, ?_⟩
      · rintro ⟨v, hv⟩; cases hv
      · rintro ⟨-, hx⟩; exact absurd hx heq
      · intro v hv; cases hv

theorem c3_witness :
    (∃ v, UnmarhalVideoData (List.replicate 20 0) = .ok v) ∧
    ¬ (∃ v, UnmarhalVideoData (List.replicate 19 0) = .ok v) :=
  ⟨((c3_unmarhalVideoData.1 (List.replicate 20 0)).1).mpr (by decide),
   fun hv => by
     have := ((c3_unmarhalVideoData.1 (List.replicate 19 0)).1).mp hv
     revert this
     decide⟩

/-! ### Claim C4 -/

lemma UnmarshalAudioData_eq (d : List Nat) :
    UnmarshalAudioData d =
      if d.length < 12 then .error "wrong audiodata size (<12)"
      else if d.length - 12 = 1 then
        .ok { decodeType := readLE32 d 0, volume := readLE32 d 4,
              audioType := toInt32 (readLE32 d 8), command := d.getD 12 0 }
      else if d.length - 12 = 4 then
        .ok { decodeType := readLE32 d 0, volume := readLE32 d 4,
              audioType := toInt32 (readLE32 d 8),
              volumeDuration := toInt32 (readLE32 d 12) }
      else
        .ok { decodeType := readLE32 d 0, volume := readLE32 d 4,
              audioType := toInt32 (readLE32 d 8), data := d.drop 12 } := rfl

/-- C4: `UnmarshalAudioData` requires at least 12 bytes, reads
`decodeType`, `volume` (an IEEE-754 f32 represented here by its
little-endian 32-bit pattern) and `audioType` from the prefix, and
dispatches on the tail length: 1 byte sets `command`, 4 bytes set
`volumeDuration`, anything else becomes raw `data`.  A 16-byte input
with tail E8 03 00 00 yields volumeDuration 1000 and a 13-byte input
with tail 07 yields command 7. -/
theorem c4_unmarshalAudioData :
    (∀ d : List Nat, 12 ≤ d.length →
        (d.length - 12 = 1 → UnmarshalAudioData d =
          .ok { decodeType := readLE32 d 0, volume := readLE32 d 4,
                audioType := toInt32 (readLE32 d 8), command := d.getD 12 0 })
      ∧ (d.length - 12 = 4 → UnmarshalAudioData d =
          .ok { decodeType := readLE32 d 0, volume := readLE32 d 4,
                audioType := toInt32 (readLE32 d 8),
                volumeDuration := toInt32 (readLE32 d 12) })
      ∧ (d.length - 12 ≠ 1 → d.length - 12 ≠ 4 → UnmarshalAudioData d =
          .ok { decodeType := readLE32 d 0, volume := readLE32 d 4,
                audioType := toInt32 (readLE32 d 8), data := d.drop 12 }))
  ∧ (∀ d : List Nat, d.length < 12 → ∃ e, UnmarshalAudioData d = .error e)
  ∧ UnmarshalAudioData [3, 0, 0, 0, 0, 0, 0, 0x3F, 0, 0, 0, 0, 0xE8, 3, 0, 0] =
      .ok { decodeType := 3, volume := 0x3F000000, volumeDuration := 1000 }
  ∧ UnmarshalAudioData [3, 0, 0, 0, 0, 0, 0, 0x3F, 0, 0, 0, 0, 7] =
      .ok { decodeType := 3, volume := 0x3F000000, command := 7 } := by
  refine ⟨?_, ?_, by decide, by decide⟩
  · intro d h12
    refine ⟨?_, ?_, ?_⟩
    · intro h1
      rw [UnmarshalAudioData_eq, if_neg (by omega), if_pos h1]
    · intro h4
      rw [UnmarshalAudioData_eq, if_neg (by omega), if_neg (by omega), if_pos h4]
    · intro h1 h4
      rw [UnmarshalAudioData_eq, if_neg (by omega), if_neg h1, if_neg h4]
  · intro d hlt
    exact ⟨"wrong audiodata size (<12)",
           by rw [UnmarshalAudioData_eq, if_pos hlt]⟩

theorem c4_witness :
    UnmarshalAudioData [3, 0, 0, 0, 0, 0, 0, 0x3F, 0, 0, 0, 0, 0xE8, 3, 0, 0] =
      .ok { decodeType := 3, volume := 0x3F000000,
            volumeDuration := toInt32 (readLE32 [3, 0, 0, 0, 0, 0, 0, 0x3F,
              0, 0, 0, 0, 0xE8, 3, 0, 0] 12) } :=
  ((c4_unmarshalAudioData.1 _ (by decide)).2.1 (by decide))

/-! ### Claim C10 -/

lemma UnmarshalIntoHeader_eq_of_length16 (d : List Nat) (h16 : d.length = 16) :
    UnmarshalIntoHeader d =
      if readLE32 d 0 ≠ magicNumber then .error "Invalid magic number"
      else if (readLE32 d 8 ^^^ 4294967295) &&& 4294967295 ≠ readLE32 d 12 then
        .error "Invalid type"
      else .ok ⟨readLE32 d 0, readLE32 d 4, readLE32 d 8, readLE32 d 12⟩ := by
  unfold UnmarshalIntoHeader
  rw [if_pos (by omega : d.length > 0), if_neg (by omega : ¬ d.length < 16)]

/-- C10: on every buffer of exactly 16 bytes the two header decoders
agree completely: `UnmarshalHeader` and the `struc`-based
`Unmarshal` into a `Header` return the same result, so they accept
and reject exactly the same 16-byte inputs and produce equal headers
on success. -/
theorem c10_header_decoders_agree (d : List Nat) (h16 : d.length = 16) :
    UnmarshalHeader d = UnmarshalIntoHeader d := by
  rw [UnmarshalHeader_eq, if_neg (by omega : ¬ (d.length ≠ 16)),
      UnmarshalIntoHeader_eq_of_length16 d h16]

theorem c10_witness :
    UnmarshalHeader [0xAA, 0x55, 0xAA, 0x55, 0x74, 0x0E, 0, 0, 0x06, 0, 0, 0,
        0xF9, 0xFF, 0xFF, 0xFF] =
      UnmarshalIntoHeader [0xAA, 0x55, 0xAA, 0x55, 0x74, 0x0E, 0, 0, 0x06, 0, 0, 0,
        0xF9, 0xFF, 0xFF, 0xFF] :=
  c10_header_decoders_agree _ (by decide)

/-! ### Claim C1 -/

lemma messageType_lt (m : Message) : messageType m < 4294967296 := by
  cases m <;> simp [messageType]

lemma UnmarshalHeader_headerBytes (h : Header)
    (hm : h.magic = magicNumber)
    (hl : h.length < 4294967296)
    (ht : h.type < 4294967296)
    (hv : (h.type ^^^ 4294967295) &&& 4294967295 = h.typeN) :
    UnmarshalHeader (headerBytes h) = .ok h := by
  obtain ⟨r0, r4, r8, r12⟩ := headerBytes_reads h
  have htn : h.typeN < 4294967296 := by
    rw [← hv]
    exact lt_of_le_of_lt Nat.and_le_right (by norm_num)
  have hmlt : h.magic < 4294967296 := by rw [hm]; norm_num [magicNumber]
  rw [Nat.mod_eq_of_lt hmlt] at r0
  rw [Nat.mod_eq_of_lt hl] at r4
  rw [Nat.mod_eq_of_lt ht] at r8
  rw [Nat.mod_eq_of_lt htn] at r12
  rw [UnmarshalHeader_eq, if_neg (by simp [headerBytes_length]), r0, r4, r8, r12,
      if_neg (not_not_intro hm), if_neg (not_not_intro hv)]

lemma Marshal_take16 (m : Message) :
    (Marshal m).take 16 =
      headerBytes ⟨magicNumber, (payloadBytes m).length % 4294967296,
        messageType m, (messageType m ^^^ 4294967295) &&& 4294967295⟩ := rfl

lemma Marshal_length (m : Message) :
    (Marshal m).length = 16 + (payloadBytes m).length := by
  show (headerBytes _ ++ payloadBytes m).length = _
  rw [List.length_append, headerBytes_length]

/-- C1 (amended): for every registered message variant whose marshalled
payload is shorter than 2^32 bytes, decoding the first 16 bytes of
`Marshal m` with `UnmarshalHeader` succeeds, the decoded type is the
registered type code of the variant, and the length field plus 16 is
the total marshalled byte length.  (For payloads of 2^32 bytes or more
the Go `uint32(len(data))` cast wraps, see the counterexample.) -/
theorem c1_marshal_header (m : Message)
    (hlen : (payloadBytes m).length < 4294967296) :
    ∃ hdr, UnmarshalHeader ((Marshal m).take 16) = .ok hdr ∧
      hdr.type = messageType m ∧ hdr.length + 16 = (Marshal m).length := by
  refine ⟨⟨magicNumber, (payloadBytes m).length % 4294967296, messageType m,
          (messageType m ^^^ 4294967295) &&& 4294967295⟩, ?_, rfl, ?_⟩
  · rw [Marshal_take16]
    exact UnmarshalHeader_headerBytes _ rfl (Nat.mod_lt _ (by norm_num))
      (messageType_lt m) rfl
  · show (payloadBytes m).length % 4294967296 + 16 = (Marshal m).length
    rw [Marshal_length, Nat.mod_eq_of_lt hlen]
    omega

theorem c1_witness :
    (payloadBytes Message.Heartbeat).length < 4294967296 ∧
    ∃ hdr, UnmarshalHeader ((Marshal Message.Heartbeat).take 16) = .ok hdr ∧
      hdr.type = messageType Message.Heartbeat ∧
      hdr.length + 16 = (Marshal Message.Heartbeat).length :=
  ⟨by decide, c1_marshal_header Message.Heartbeat (by decide)⟩

/-- Registered message with a 2^32-byte payload: `uint32(len(data))`
wraps to 0. -/
def c1big : Message := .BluetoothPIN (List.replicate 4294967296 0)

/-- C1 counterexample: `Marshal c1big` succeeds and its header decodes
fine, but the decoded length field is 0 while the total marshalled
length is 2^32 + 16, so length + 16 differs from the total byte
length, refuting the claim as stated. -/
theorem c1_counterexample :
    UnmarshalHeader ((Marshal c1big).take 16) = .ok ⟨magicNumber, 0, 12, 4294967283⟩
  ∧ (Marshal c1big).length = 4294967312
  ∧ (0 : Nat) + 16 ≠ 4294967312 := by
  have hpl : (payloadBytes c1big).length = 4294967296 := by
    show (List.replicate 4294967296 (0 : Nat)).length = 4294967296
    rw [List.length_replicate]
  refine ⟨?_, ?_, by norm_num⟩
  · rw [Marshal_take16, hpl]
    have hb := UnmarshalHeader_headerBytes
      ⟨magicNumber, 4294967296 % 4294967296, messageType c1big,
        (messageType c1big ^^^ 4294967295) &&& 4294967295⟩ rfl (by norm_num)
      (messageType_lt c1big) rfl
    rw [hb]
    rfl
  · rw [Marshal_length, hpl]

/-! ### Claims C5 and C6 -/

lemma receiveUsbMessage_err (res : ReadResult) (rest : Reader) (e : String)
    (h : res.err = some e) :
    receiveUsbMessage (res :: rest) = (.error e, rest) := by
  simp only [receiveUsbMessage, readChunk, h]

lemma receiveUsbMessage_hdr_error (res : ReadResult) (rest : Reader) (e : String)
    (hn : res.err = none) (h16 : res.bytes.length = 16)
    (he : UnmarshalHeader res.bytes = .error e) :
    receiveUsbMessage (res :: rest) = (.error e, rest) := by
  have htake : res.bytes.take 16 = res.bytes := by
    rw [← h16, List.take_length]
  simp [receiveUsbMessage, readChunk, hn, htake, h16, he]

lemma receiveVideoAudio_cons_error (res : ReadResult) (rest : Reader) (e : String)
    (h : receiveUsbMessage (res :: rest) = (.error e, rest)) :
    receiveVideoAudioUsbMessage (res :: rest) = (.error e, rest) := by
  show receiveVideoAudioAux (rest.length + 1) (res :: rest) = _
  unfold receiveVideoAudioAux
  rw [h]

lemma inEndpointStep_of_receive_error (r r1 : Reader) (e : String)
    (h : receiveVideoAudioUsbMessage r = (.error e, r1)) :
    inEndpointStep r = ([.onError e], r1) := by
  unfold inEndpointStep
  rw [h]

lemma inEndpointRun_cons (res : ReadResult) (rest : Reader) (evs : List Event)
    (h : inEndpointStep (res :: rest) = (evs, rest)) :
    inEndpointRun (res :: rest) = evs ++ inEndpointRun rest := by
  show inEndpointRunAux (rest.length + 1) (res :: rest) = _
  unfold inEndpointRunAux
  rw [h]
  rfl

/-- Bytes of a correctly framed `Plugged` packet: valid magic, length
0, type 0x02, complement typeN. -/
def c5pluggedBytes : List Nat :=
  [0xAA, 0x55, 0xAA, 0x55, 0, 0, 0, 0, 0x02, 0, 0, 0, 0xFD, 0xFF, 0xFF, 0xFF]

/-- C5 (code behaviour at the failing input): a correctly framed
non-media `Plugged` packet decodes fine, but the receiver iteration
never emits an `onData` event for it — `receiveVideoAudioUsbMessage`
silently discards it and keeps reading (here hitting end of stream),
so the only event is the EOF error.  This refutes the claim that
non-media packets are delivered via `on_data`. -/
theorem c5_plugged_dropped :
    UnmarshalHeader c5pluggedBytes = .ok ⟨0x55AA55AA, 0, 2, 0xFFFFFFFD⟩
  ∧ inEndpointStep [⟨c5pluggedBytes, none⟩] = ([.onError "EOF"], []) := by
  exact ⟨by decide, by decide⟩

/-- C6 (amended): when the header read returns an error, or returns a
full 16-byte header that fails the magic or complement validation, the
receiver invokes `on_error` with the error and the receive loop
continues with the rest of the stream.  (A short header read that
returns no error is silently discarded without `on_error` — see the
counterexample.) -/
theorem c6_receiver_error_handling :
    (∀ (res : ReadResult) (rest : Reader) (e : String), res.err = some e →
        inEndpointStep (res :: rest) = ([.onError e], rest)
      ∧ inEndpointRun (res :: rest) = .onError e :: inEndpointRun rest)
  ∧ (∀ (res : ReadResult) (rest : Reader), res.err = none → res.bytes.length = 16 →
      (readLE32 res.bytes 0 ≠ magicNumber ∨
        (readLE32 res.bytes 8 ^^^ 4294967295) &&& 4294967295 ≠ readLE32 res.bytes 12) →
      ∃ e, UnmarshalHeader res.bytes = .error e
        ∧ inEndpointStep (res :: rest) = ([.onError e], rest)
        ∧ inEndpointRun (res :: rest) = .onError e :: inEndpointRun rest) := by
  constructor
  · intro res rest e h
    have hstep : inEndpointStep (res :: rest) = ([.onError e], rest) :=
      inEndpointStep_of_receive_error _ _ _
        (receiveVideoAudio_cons_error res rest e (receiveUsbMessage_err res rest e h))
    exact ⟨hstep, inEndpointRun_cons res rest _ hstep⟩
  · intro res rest hn h16 hbad
    have hex : ∃ e, UnmarshalHeader res.bytes = .error e := by
      rcases hbad with hm | ht
      · exact ⟨"Invalid magic number",
          by rw [UnmarshalHeader_eq, if_neg (not_not_intro h16), if_pos hm]⟩
      · by_cases hm : readLE32 res.bytes 0 = magicNumber
        · exact ⟨"Invalid type",
            by rw [UnmarshalHeader_eq, if_neg (not_not_intro h16),
                   if_neg (not_not_intro hm), if_pos ht]⟩
        · exact ⟨"Invalid magic number",
            by rw [UnmarshalHeader_eq, if_neg (not_not_intro h16), if_pos hm]⟩
    obtain ⟨e, he⟩ := hex
    have hstep : inEndpointStep (res :: rest) = ([.onError e], rest) :=
      inEndpointStep_of_receive_error _ _ _
        (receiveVideoAudio_cons_error res rest e
          (receiveUsbMessage_hdr_error res rest e hn h16 he))
    exact ⟨e, he, hstep, inEndpointRun_cons res rest _ hstep⟩

theorem c6_witness :
    inEndpointStep [⟨[], some "usb: io error"⟩] = ([.onError "usb: io error"], []) :=
  (c6_receiver_error_handling.1 ⟨[], some "usb: io error"⟩ [] "usb: io error" rfl).1

/-- Read results where the header read delivers only 10 bytes with a
nil error, followed by a valid 20-byte video packet. -/
def c6reader : Reader :=
  [⟨List.replicate 10 0, none⟩,
   ⟨[0xAA, 0x55, 0xAA, 0x55, 0x14, 0, 0, 0, 6, 0, 0, 0, 0xF9, 0xFF, 0xFF, 0xFF], none⟩,
   ⟨List.replicate 20 0, none⟩]

/-- C6 counterexample: the first header read returns fewer than 16
bytes (10) with no error, yet the receiver iteration emits no
`onError` at all — the partial bytes are silently discarded and the
following video packet is decoded, refuting the claim that every short
header read invokes `on_error`. -/
theorem c6_counterexample :
    (c6reader.headD ⟨[], none⟩).bytes.length = 10
  ∧ (c6reader.headD ⟨[], none⟩).err = none
  ∧ inEndpointStep c6reader = ([.onVideo ⟨0, 0, 0, 0, 0, []⟩], []) := by
  exact ⟨by decide, by decide, by decide⟩

/-! ### Claim C7 -/

lemma senderWindowLoop_spec (queue : List (List Nat)) :
    ∀ (remaining : Nat) (buff : List Nat),
      ∃ k, (senderWindowLoop remaining buff queue).2 = queue.drop k
        ∧ (senderWindowLoop remaining buff queue).1.flatten = buff ++ (queue.take k).flatten
        ∧ (senderWindowLoop remaining buff queue).1.length ≤ 2 := by
  induction queue with
  | nil =>
    intro r b
    exact ⟨0, rfl, by simp [senderWindowLoop], by simp [senderWindowLoop]⟩
  | cons m rest ih =>
    intro r b
    by_cases h : r > m.length
    · obtain ⟨k, h1, h2, h3⟩ := ih (r - m.length) (b ++ m)
      refine ⟨k + 1, ?_, ?_, ?_⟩
      · simpa [senderWindowLoop, h] using h1
      · simp only [senderWindowLoop, if_pos h]
        rw [h2, List.take_succ_cons, List.flatten_cons, List.append_assoc]
      · simpa [senderWindowLoop, h] using h3
    · refine ⟨1, ?_, ?_, ?_⟩
      · simp [senderWindowLoop, h]
      · simp [senderWindowLoop, h]
      · simp [senderWindowLoop, h]

/-- C7 (amended): over one batch window the bytes written to the OUT
endpoint are exactly the concatenation of the marshalled messages
dequeued in the window (the first message plus the first `k` of the
queue), at most 2 write calls occur — hence at most the number of
dequeued messages plus one — and a message is appended to the batch
buffer exactly when it is strictly smaller than the remaining free
space; a message whose size equals or exceeds the free space causes a
buffer flush followed by a direct write of that message, ending the
window. -/
theorem c7_sender_batching :
    (∀ (bMsg : List Nat) (queue : List (List Nat)),
      ∃ k, (senderWindow bMsg queue).2 = queue.drop k
        ∧ (senderWindow bMsg queue).1.flatten = bMsg ++ (queue.take k).flatten
        ∧ (senderWindow bMsg queue).1.length ≤ 2
        ∧ (senderWindow bMsg queue).1.length ≤ (k + 1) + 1)
  ∧ (∀ (remaining : Nat) (buff bMsg : List Nat) (rest : List (List Nat)),
      bMsg.length < remaining →
        senderWindowLoop remaining buff (bMsg :: rest) =
          senderWindowLoop (remaining - bMsg.length) (buff ++ bMsg) rest)
  ∧ (∀ (remaining : Nat) (buff bMsg : List Nat) (rest : List (List Nat)),
      remaining ≤ bMsg.length →
        senderWindowLoop remaining buff (bMsg :: rest) = ([buff, bMsg], rest)) := by
  refine ⟨?_, ?_, ?_⟩
  · intro bMsg queue
    unfold senderWindow
    by_cases h : outBufferCap > bMsg.length
    · rw [if_pos h]
      obtain ⟨k, h1, h2, h3⟩ := senderWindowLoop_spec queue (outBufferCap - bMsg.length) bMsg
      exact ⟨k, h1, h2, h3, by omega⟩
    · rw [if_neg h]
      exact ⟨0, rfl, by simp, by simp, by simp⟩
  · intro remaining buff bMsg rest h
    simp [senderWindowLoop, h]
  · intro remaining buff bMsg rest h
    simp [senderWindowLoop, Nat.not_lt.mpr h]

theorem c7_witness :
    senderWindowLoop 5 [1] [[2, 3, 4, 5, 6]] = ([[1], [2, 3, 4, 5, 6]], []) ∧
    (∃ k, (senderWindow [7] []).2 = ([] : List (List Nat)).drop k
      ∧ (senderWindow [7] []).1.flatten = [7] ++ (([] : List (List Nat)).take k).flatten
      ∧ (senderWindow [7] []).1.length ≤ 2
      ∧ (senderWindow [7] []).1.length ≤ (k + 1) + 1) :=
  ⟨c7_sender_batching.2.2 5 [1] [2, 3, 4, 5, 6] [] (by decide),
   c7_sender_batching.1 [7] []⟩

/-- A 16-byte first message. -/
def c7m1 : List Nat := List.replicate 16 0

/-- A second message whose size is exactly the free space left in the
batch buffer after the first message was appended. -/
def c7m2 : List Nat := List.replicate (outBufferCap - 16) 1

/-- C7 counterexample: after the first 16-byte message is appended the
free space of the batch buffer is exactly `outBufferCap - 16` bytes.
A second message of exactly that size fits into the free space, yet
the strict `remaining > len(bMsg)` comparison sends it down the
flush-plus-direct-write path: the window performs two writes
(`[c7m1, c7m2]`) instead of appending, refuting the claim that every
message fitting in the free space is appended. -/
theorem c7_counterexample :
    c7m2.length = outBufferCap - c7m1.length
  ∧ senderWindow c7m1 [c7m2] = ([c7m1, c7m2], []) := by
  have h1 : c7m1.length = 16 := by
    show (List.replicate 16 (0 : Nat)).length = 16
    rw [List.length_replicate]
  have h2 : c7m2.length = outBufferCap - 16 := by
    show (List.replicate (outBufferCap - 16) (1 : Nat)).length = _
    rw [List.length_replicate]
  refine ⟨by rw [h1, h2], ?_⟩
  unfold senderWindow
  rw [h1, if_pos (by norm_num [outBufferCap])]
  simp only [senderWindowLoop]
  rw [h2, if_neg (lt_irrefl _)]

/-! ### Claim C8 -/

/-- C8 (code behaviour at the failing input): when the flush write of
a batch window fails, `outEndpointProcess` calls `log.Fatal`, so the
whole process exits (`processExit`) — the link does not fall back to a
per-attachment teardown and reconnect.  With a succeeding write the
same window completes normally, showing the outcome difference is due
only to the write failure. -/
theorem c8_write_failure_exits_process :
    senderWindowE [some "usb: write error"] (List.replicate 16 0) [] =
      .processExit "usb: write error"
  ∧ senderWindowE [none] (List.replicate 16 0) [] = .windowDone [] := by
  exact ⟨rfl, rfl⟩

/-! ### Claim C9 -/

/-- C9 counterexample: a fresh `Start` and a `Start` on an
already-running link both report `none` (the Go `nil` error) — the
already-running outcome is not distinguishable from a fresh start.
The state is unchanged by the second call. -/
theorem c9_counterexample :
    (Start {}).2 = none
  ∧ (Start (Start {}).1).2 = none
  ∧ (Start (Start {}).1).1 = (Start {}).1 := by
  exact ⟨rfl, rfl, rfl⟩

/-- C9 (amended): `Start` on a running link changes no state and
returns `nil`, exactly like a fresh start (no distinct already-running
report); `Stop` on a non-running link (before any start or after a
completed stop) is a no-op, and `Stop` is idempotent. -/
theorem c9_lifecycle :
    (∀ l : USBLink, l.exitChan = true → Start l = (l, none))
  ∧ (∀ l : USBLink, l.exitChan = false → Stop l = l)
  ∧ (∀ l : USBLink, (Stop l).exitChan = false ∧ Stop (Stop l) = Stop l)
  ∧ (∀ l : USBLink, l.exitChan = false → (Start l).2 = none) := by
  refine ⟨?_, ?_, ?_, ?_⟩
  · intro l h
    simp [Start, h]
  · intro l h
    simp [Stop, h]
  · intro l
    by_cases h : l.exitChan = false
    · constructor
      · simp [Stop, h]
      · simp [Stop, h]
    · have h' : l.exitChan = true := by
        cases hx : l.exitChan
        · exact absurd hx h
        · rfl
      constructor
      · simp [Stop, h']
      · simp [Stop, h']
  · intro l h
    simp [Start, h]

theorem c9_witness :
    Stop {} = ({} : USBLink) ∧ (Start {}).2 = none ∧
    Start (Start {}).1 = ((Start {}).1, none) :=
  ⟨c9_lifecycle.2.1 {} rfl, c9_lifecycle.2.2.2 {} rfl,
   c9_lifecycle.1 (Start {}).1 rfl⟩

end Gocarplay
